import Mathlib

/-!
# lynx-v2: feed synchronisation and enrichment dispatch

A shallow embedding of `backend/lynx/feeds/feeds.go` and of the hooks and the
archive handler of `backend/lynx/lynx.go`.

* The PocketBase store (`core.App` / `Dao`) is an explicit state `App` holding the
  records of the `feeds`, `feed_items` and `links` collections.
* Everything the Go code obtains from outside (HTTP transport, the gofeed parser, the
  clock, the verdict of the store on a write) is a field of `World`, so every function
  below is a total, computable function of its arguments.
* A call ends by returning its Go `error` result (`none` is `nil`) or by a run-time
  panic; functions that mutate the store return the store they leave behind together
  with the way they ended.
-/

namespace Lynx

/-! ## Time -/

/-- An instant of `time.Time`, in nanoseconds counted from the zero instant `time.Time{}`. -/
abbrev Time := Int

/-- The zero instant `time.Time{}`. -/
def Time.zero : Time := 0

/-- Go `t.IsZero()`. -/
def Time.IsZero (t : Time) : Bool := t == Time.zero

/-- Go `t.After(u)`: `t` is strictly later than `u`. -/
def Time.After (t u : Time) : Bool := decide (u < t)

/-- The instant denoted by `t.Format(time.RFC3339)`: the layout has no fractional
seconds, so the rendered instant is `t` cut down to a whole second. -/
def RFC3339 (t : Time) : Time := t - t % 1000000000

/-- The instant a date field of a stored record keeps: PocketBase writes a
`types.DateTime` with millisecond precision. -/
def storedDateTime (t : Time) : Time := t - t % 1000000

/-! ## Errors and panics -/

/-- Go error values: a leaf error, or `fmt.Errorf("ctx: %w", err)`. -/
inductive Error where
  | msg (text : String)
  | wrap (ctx : String) (cause : Error)
  deriving DecidableEq, Repr

/-- How a call of a Go function with an `error` result ends: it returns (`none` is the
`nil` error), or it panics on a nil pointer dereference and never returns. -/
inductive Exit where
  | returned (err : Option Error)
  | nilPointerDereference
  deriving DecidableEq, Repr

/-- The `apis.ApiError` of PocketBase: HTTP status code and message. -/
structure ApiError where
  Code : Nat
  Message : String
  deriving DecidableEq, Repr

/-- Go `inflector.Sentenize` followed by `strings.TrimSpace`, as `apis.NewApiError`
applies them to the message: surrounding white space is dropped, the first letter is
made upper case and a period is appended unless the text ends in `.`, `?` or `!`. -/
def Sentenize (str : String) : String :=
  match ((str.data.dropWhile Char.isWhitespace).reverse.dropWhile Char.isWhitespace).reverse with
  | [] => ""
  | first :: rest =>
    let text := first.toUpper :: rest
    if text.getLast? == some '.' || text.getLast? == some '?' || text.getLast? == some '!' then
      String.mk text
    else
      String.mk (text ++ ['.'])

/-- Go `apis.NewForbiddenError`: status 403; an empty message is replaced by the
default text of PocketBase. -/
def NewForbiddenError (m : String) : ApiError :=
  ⟨403, Sentenize (if m == "" then "You are not allowed to perform this request." else m)⟩

/-- Go `apis.NewBadRequestError`: status 400; an empty message is replaced by the
default text of PocketBase. -/
def NewBadRequestError (m : String) : ApiError :=
  ⟨400, Sentenize (if m == "" then "Something went wrong while processing your request."
    else m)⟩

/-- Go `apis.NewNotFoundError`: status 404; an empty message is replaced by the
default text of PocketBase. -/
def NewNotFoundError (m : String) : ApiError :=
  ⟨404, Sentenize (if m == "" then "The requested resource wasn't found." else m)⟩

/-! ## gofeed values -/

namespace gofeed

/-- The `gofeed.Image` fields the code reads. -/
structure Image where
  URL : String
  deriving DecidableEq, Repr

/-- The `gofeed.Item` fields the code reads; `PublishedParsed` is a `*time.Time`
(`none` is the nil pointer of an item with no parseable publish time). -/
structure Item where
  Title : String
  Description : String
  Link : String
  GUID : String
  PublishedParsed : Option Time
  deriving DecidableEq, Repr

/-- The `gofeed.Feed` fields the code reads; `Image` is a pointer. -/
structure Feed where
  Title : String
  Description : String
  Image : Option Image
  Items : List Item
  deriving DecidableEq, Repr

end gofeed

/-- Go `FeedResult`: the parsed feed (a pointer, `none` is `nil`) and the two
validator headers received from the remote server. -/
structure FeedResult where
  Feed : Option gofeed.Feed
  ETag : String
  LastModified : String
  deriving DecidableEq, Repr

/-! ## Store records -/

/-- A record of the `feed_items` collection, with the fields `SaveNewFeedItems` sets;
`pub_date` is `none` for a record whose date field is empty. -/
structure FeedItemRecord where
  user : String
  feed : String
  title : String
  pub_date : Option Time
  guid : String
  description : String
  url : String
  deriving DecidableEq, Repr

/-- A record of the `feeds` collection. -/
structure FeedRecord where
  id : String
  user : String
  feed_url : String
  name : String
  description : String
  image_url : String
  etag : String
  modified : String
  last_fetched_at : Time
  auto_add_feed_items_to_library : Bool
  deriving DecidableEq, Repr

/-- A record of the `links` collection: identity and owner. -/
structure LinkRecord where
  id : String
  user : String
  deriving DecidableEq, Repr

/-- The store behind `app.Dao()`. -/
structure App where
  feeds : List FeedRecord
  feed_items : List FeedItemRecord
  links : List LinkRecord
  deriving DecidableEq, Repr

/-! ## The outside world -/

/-- The request `LoadFeedFromURL` sends: URL and the two conditional headers
(absent when not set). -/
structure Request where
  URL : String
  IfNoneMatch : Option String
  IfModifiedSince : Option String
  deriving DecidableEq, Repr

/-- The part of an `http.Response` the code reads; `Header.Get` yields `""` for an
absent header. -/
structure Response where
  StatusCode : Nat
  ETag : String
  LastModified : String
  Body : String
  deriving DecidableEq, Repr

/-- Go `http.StatusNotModified`. -/
def StatusNotModified : Nat := 304

/-- Go `http.StatusOK`. -/
def StatusOK : Nat := 200

/-- Everything the code obtains from outside itself. -/
structure World where
  /-- Go `http.NewRequest("GET", url, nil)`: `some e` when the request cannot be built. -/
  NewRequest : String → Option Error
  /-- Go `client.Do(req)`. -/
  Do : Request → Except Error Response
  /-- Go `gofeed.NewParser().Parse(body)`: gofeed returns either an error or a feed
  pointer that is not nil. -/
  Parse : String → Except Error gofeed.Feed
  /-- Go `t.Format(http.TimeFormat)`. -/
  FormatHTTP : Time → String
  /-- Go `time.Parse(http.TimeFormat, s)`; `none` is a parse error. -/
  ParseHTTP : String → Option Time
  /-- Go `time.Now().UTC()`. -/
  Now : Time
  /-- Go `Dao().FindCollectionByNameOrId(name)`: `some e` when the lookup fails. -/
  FindCollection : String → Option Error
  /-- Verdict of `Dao().SaveRecord` on a new `feed_items` record, given the records
  already stored: `some e` when the write is rejected. -/
  SaveFeedItem : List FeedItemRecord → FeedItemRecord → Option Error
  /-- Verdict of `Dao().SaveRecord` on a `feeds` record. -/
  SaveFeed : List FeedRecord → FeedRecord → Option Error
  /-- The id the store gives to a newly created `feeds` record. -/
  NewId : String

/-! ## `feeds.go` -/

/-- The request `LoadFeedFromURL` builds: `If-None-Match` is set when `etag` is not
empty, `If-Modified-Since` when `ifModifiedSince` is not the zero instant. -/
def conditionalGet (w : World) (url : String) (etag : String) (ifModifiedSince : Time) :
    Request :=
  { URL := url
    IfNoneMatch := if etag != "" then some etag else none
    IfModifiedSince :=
      if !ifModifiedSince.IsZero then some (w.FormatHTTP ifModifiedSince) else none }

/-- Go `LoadFeedFromURL`. -/
def LoadFeedFromURL (w : World) (url : String) (etag : String) (ifModifiedSince : Time) :
    Except Error FeedResult :=
  match w.NewRequest url with
  | some err => .error err
  | none =>
    let req := conditionalGet w url etag ifModifiedSince
    match w.Do req with
    | .error err => .error err
    | .ok resp =>
      if resp.StatusCode == StatusNotModified then
        .ok { Feed := none, ETag := "", LastModified := "" }
      else
        match w.Parse resp.Body with
        | .error err => .error err
        | .ok feed =>
          .ok { Feed := some feed, ETag := resp.ETag, LastModified := resp.LastModified }

/-- The hexadecimal digit of a number below 16. -/
def hexDigit (n : Nat) : Char := "0123456789abcdef".data.getD n '0'

/-- What one character of a placeholder value becomes in the text a filter compares a
field with. PocketBase puts the value into the filter expression with `strconv.Quote`
and the scanner of the expression takes the quoted text back undoing only the escape of
the quote character: a backslash stays doubled and a control character stays written
as its escape. Characters outside ASCII are taken as printable, which `strconv.Quote`
keeps. -/
def quoteRune (c : Char) : List Char :=
  if c == '\\' then ['\\', '\\']
  else if c == '\n' then ['\\', 'n']
  else if c == '\r' then ['\\', 'r']
  else if c == '\t' then ['\\', 't']
  else if c.toNat == 7 then ['\\', 'a']
  else if c.toNat == 8 then ['\\', 'b']
  else if c.toNat == 12 then ['\\', 'f']
  else if c.toNat == 11 then ['\\', 'v']
  else if c.toNat < 32 || c.toNat == 127 then
    ['\\', 'x', hexDigit (c.toNat / 16), hexDigit (c.toNat % 16)]
  else [c]

/-- The text a filter compares a field with when a placeholder carries `value`. An
empty value is replaced by its JSON text (two quote characters) before it is quoted.
`none` when the quoted text ends in a backslash: the scanner then takes the closing
quote as escaped and the filter does not parse. -/
def filterLiteral (value : String) : Option String :=
  let text := if value == "" then "\"\"" else value
  let quoted := text.data.flatMap quoteRune
  if quoted.getLast? == some '\\' then none else some (String.mk quoted)

/-- Go `app.Dao().FindFirstRecordByFilter` on `feed_items` with the filter on `feed` and
`guid` (both compared with `=` and joined by `&&`), together with the
`existingItem, _ :=` that discards its error: the first stored record whose `feed` and
`guid` equal the texts the filter carries for the two placeholder values, and no record
when there is none or when the filter does not parse. For a value that is empty or
holds a backslash or a control character that text is not the value. -/
def FindFirstRecordByFilter (items : List FeedItemRecord) (feed guid : String) :
    Option FeedItemRecord :=
  match filterLiteral feed, filterLiteral guid with
  | some f, some g => items.find? (fun r => r.feed == f && r.guid == g)
  | _, _ => none

/-- The record `SaveNewFeedItems` builds for a feed item (`models.NewRecord` and the
seven `Set` calls). `newItem.Set("pub_date", item.PublishedParsed)` with the nil pointer
of an undated item panics (the date field calls a method of `time.Time` through it), so
there is no record then: `none`. The date of a dated item is kept to the millisecond. -/
def newFeedItemRecord (user feedId : String) (item : gofeed.Item) : Option FeedItemRecord :=
  match item.PublishedParsed with
  | none => none
  | some published =>
    some { user := user
           feed := feedId
           title := item.Title
           pub_date := some (storedDateTime published)
           guid := item.GUID
           description := item.Description
           url := item.Link }

/-- Go `app.Dao().SaveRecord(newItem)` for a new `feed_items` record. -/
def SaveFeedItemRecord (w : World) (app : App) (r : FeedItemRecord) : Except Error App :=
  match w.SaveFeedItem app.feed_items r with
  | some err => .error err
  | none => .ok { app with feed_items := app.feed_items ++ [r] }

/-- The recency test of the loop of `SaveNewFeedItems`:
`item.PublishedParsed != nil && !item.PublishedParsed.After(lastArticlePubDate)`. -/
def skipsAsOld (item : gofeed.Item) (lastArticlePubDate : Time) : Bool :=
  match item.PublishedParsed with
  | some p => !(Time.After p lastArticlePubDate)
  | none => false

/-- The `for _, item := range feed.Items` loop of `SaveNewFeedItems`. A panic while the
record is built and an error of `SaveRecord` both end the call at once and keep what was
written before. -/
def saveItemsLoop (w : World) (user feedId : String) (lastArticlePubDate : Time) :
    App → List gofeed.Item → App × Exit
  | app, [] => (app, .returned none)
  | app, item :: rest =>
    if skipsAsOld item lastArticlePubDate then
      saveItemsLoop w user feedId lastArticlePubDate app rest
    else
      match FindFirstRecordByFilter app.feed_items feedId item.GUID with
      | some _ => saveItemsLoop w user feedId lastArticlePubDate app rest
      | none =>
        match newFeedItemRecord user feedId item with
        | none => (app, .nilPointerDereference)
        | some newItem =>
          match SaveFeedItemRecord w app newItem with
          | .error err => (app, .returned (some err))
          | .ok app1 => saveItemsLoop w user feedId lastArticlePubDate app1 rest

/-- Go `SaveNewFeedItems`. -/
def SaveNewFeedItems (w : World) (app : App) (feed : gofeed.Feed) (user feedId : String)
    (lastArticlePubDate : Time) : App × Exit :=
  match w.FindCollection "feed_items" with
  | some err => (app, .returned (some err))
  | none => saveItemsLoop w user feedId lastArticlePubDate app feed.Items

/-- Go `app.Dao().FindRecordById("feeds", feedId)`. -/
def FindFeedById (app : App) (feedId : String) : Option FeedRecord :=
  app.feeds.find? (fun r => r.id == feedId)

/-- Go `app.Dao().SaveRecord(feed)` for an existing `feeds` record: the stored record
with that id is replaced. -/
def SaveFeedRecord (w : World) (app : App) (feed : FeedRecord) : Except Error App :=
  match w.SaveFeed app.feeds feed with
  | some err => .error err
  | none => .ok { app with feeds := app.feeds.map (fun r => if r.id == feed.id then feed else r) }

/-- Go `FetchNewFeedItems`. -/
def FetchNewFeedItems (w : World) (app : App) (feedId : String) : App × Exit :=
  match FindFeedById app feedId with
  | none =>
    (app, .returned (some (.wrap "failed to find feed" (.msg "sql: no rows in result set"))))
  | some feed =>
    let feedURL := feed.feed_url
    let etag := feed.etag
    let lastModified := feed.modified
    let lastModifiedTime := (w.ParseHTTP lastModified).getD Time.zero
    match LoadFeedFromURL w feedURL etag lastModifiedTime with
    | .error err => (app, .returned (some (.wrap "failed to load feed from URL" err)))
    | .ok feedResult =>
      match feedResult.Feed with
      | none => (app, .returned none)
      | some parsed =>
        let feed1 := { feed with etag := feedResult.ETag }
        let feed2 := { feed1 with modified := feedResult.LastModified }
        let previousFetchTime := feed2.last_fetched_at
        let lastFetchedAt := w.Now
        let feed3 := { feed2 with last_fetched_at := RFC3339 lastFetchedAt }
        match SaveFeedRecord w app feed3 with
        | .error err => (app, .returned (some (.wrap "failed to update feed record" err)))
        | .ok app1 =>
          match SaveNewFeedItems w app1 parsed feed3.user feedId previousFetchTime with
          | (app2, .returned (some err)) =>
            (app2, .returned (some (.wrap "failed to save new feed items" err)))
          | (app2, .returned none) => (app2, .returned none)
          | (app2, .nilPointerDereference) => (app2, .nilPointerDereference)

/-- The part of an `echo.Context` the handlers read: the authenticated record stored
under `apis.ContextAuthRecordKey` (`none` when the type assertion yields `nil`), the
form values and the path parameters. -/
structure Context where
  AuthRecordId : Option String
  FormValue : String → String
  PathParam : String → String

/-- What a handler call ends in: an `apis.ApiError`, the response written by `c.JSON`,
or the run-time panic of reading through a nil pointer. -/
inductive HandlerResult where
  | apiError (e : ApiError)
  | json (code : Nat) (body : List (String × String))
  | nilPointerDereference
  deriving DecidableEq, Repr

/-- Go `app.Dao().SaveRecord(record)` for a new `feeds` record: the store gives it its
id and appends it. -/
def SaveNewFeedRecord (w : World) (app : App) (record : FeedRecord) : Except Error App :=
  match w.SaveFeed app.feeds record with
  | some err => .error err
  | none => .ok { app with feeds := app.feeds ++ [{ record with id := w.NewId }] }

/-- Go `SaveNewFeed`. -/
def SaveNewFeed (w : World) (app : App) (c : Context) : App × HandlerResult :=
  match c.AuthRecordId with
  | none => (app, .apiError (NewForbiddenError "Not authenticated"))
  | some authRecordId =>
    let url := c.FormValue "url"
    if url == "" then
      (app, .apiError (NewBadRequestError "URL is required"))
    else
      match LoadFeedFromURL w url "" Time.zero with
      | .error _ => (app, .apiError (NewBadRequestError "Error parsing feed"))
      | .ok feedResult =>
        match w.FindCollection "feeds" with
        | some _ => (app, .apiError (NewBadRequestError "Failed to find feeds collection"))
        | none =>
          -- `feedResult.Feed.Title` is read with no nil check on `feedResult.Feed`
          match feedResult.Feed with
          | none => (app, .nilPointerDereference)
          | some feed =>
            let record : FeedRecord :=
              { id := ""
                user := authRecordId
                feed_url := url
                name := feed.Title
                description := feed.Description
                image_url := match feed.Image with
                  | some image => image.URL
                  | none => ""
                etag := feedResult.ETag
                modified := feedResult.LastModified
                last_fetched_at := RFC3339 w.Now
                auto_add_feed_items_to_library := false }
            match SaveNewFeedRecord w app record with
            | .error _ => (app, .apiError (NewBadRequestError "Failed to save feed"))
            | .ok app1 =>
              match SaveNewFeedItems w app1 feed authRecordId w.NewId Time.zero with
              | (app2, .returned (some _)) =>
                (app2, .apiError (NewBadRequestError "Failed to save feed items"))
              | (app2, .returned none) => (app2, .json 200 [("id", w.NewId)])
              | (app2, .nilPointerDereference) => (app2, .nilPointerDereference)

/-! ## `lynx.go` -/

/-- A background enrichment attempt handed to a goroutine, with its argument. -/
inductive Attempt where
  | MaybeSummarizeLink (linkID : String)
  | MaybeArchiveLink (linkID : String)
  | convertFeedItemToLinkFunc (feedItemID : String)
  deriving DecidableEq, Repr

/-- Go `core.ModelEvent`, reduced to `e.Model.GetId()`. -/
structure ModelEvent where
  ModelId : String
  deriving DecidableEq, Repr

/-- Go `routine.FireAndForget(f)` and `go f()`: the attempt is handed to a new
goroutine and the caller goes on at once; nothing of the attempt comes back. -/
def FireAndForget (f : Attempt) (launched : List Attempt) : List Attempt :=
  launched ++ [f]

/-- The hook `app.OnModelAfterCreate("links")`: its return value and the attempts
it launched. -/
def linksAfterCreate (e : ModelEvent) : Option Error × List Attempt :=
  let launched := FireAndForget (.MaybeSummarizeLink e.ModelId) []
  let launched := FireAndForget (.MaybeArchiveLink e.ModelId) launched
  (none, launched)

/-- The hook `app.OnModelAfterCreate("feed_items")`: its return value and the attempts
it launched. -/
def feedItemsAfterCreate (e : ModelEvent) : Option Error × List Attempt :=
  let launched := FireAndForget (.convertFeedItemToLinkFunc e.ModelId) []
  (none, launched)

/-- Go `app.Dao().FindRecordById("links", linkID)`. -/
def FindLinkById (app : App) (linkID : String) : Option LinkRecord :=
  app.links.find? (fun r => r.id == linkID)

/-- Go `handleArchiveLink`: its result and the archive attempts it launched. -/
def handleArchiveLink (app : App) (c : Context) : HandlerResult × List Attempt :=
  let linkID := c.PathParam "id"
  if linkID == "" then
    (.apiError (NewNotFoundError "Link ID is required"), [])
  else
    match c.AuthRecordId with
    | none => (.apiError (NewForbiddenError "Not authenticated"), [])
    | some authRecordId =>
      match FindLinkById app linkID with
      | none => (.apiError (NewNotFoundError "Link not found"), [])
      | some link =>
        if link.user != authRecordId then
          (.apiError (NewForbiddenError "You don't have permission to archive this link"), [])
        else
          (.json StatusOK [("message", "Archive process started")],
            FireAndForget (.MaybeArchiveLink linkID) [])

/-! ## Specification vocabulary -/

/-- The empty store. -/
def App.empty : App := { feeds := [], feed_items := [], links := [] }

/-- The dedup key of a stored feed item: its (feed, guid) pair. -/
def FeedItemRecord.key (r : FeedItemRecord) : String × String := (r.feed, r.guid)

/-- No two stored FeedItems share a (feed, guid) pair. -/
def UniqueFeedGuid (app : App) : Prop := (app.feed_items.map FeedItemRecord.key).Nodup

/-- Number of stored FeedItems with the given (feed, guid) pair. -/
def countFeedGuid (app : App) (feed guid : String) : Nat :=
  app.feed_items.countP (fun r => r.feed == feed && r.guid == guid)

/-- The feed record as `FetchNewFeedItems` saves it after a fetch that returned a parsed
feed: `etag`, `modified` and `last_fetched_at` are set, every other field is kept. -/
def FeedRecord.refreshed (feed : FeedRecord) (result : FeedResult) (now : Time) : FeedRecord :=
  { feed with
    etag := result.ETag
    modified := result.LastModified
    last_fetched_at := RFC3339 now }

/-- The store with the `feeds` record of id `feedId` replaced by `feed`. -/
def App.withFeed (app : App) (feedId : String) (feed : FeedRecord) : App :=
  { app with feeds := app.feeds.map (fun r => if r.id == feedId then feed else r) }

instance (app : App) : Decidable (UniqueFeedGuid app) :=
  inferInstanceAs (Decidable (List.Nodup _))

/-! ## Concrete data for the worked instances -/

/-- A world whose server answers every request with status 200 and a body the parser
turns into `feed`, whose clock shows `now`, and whose store accepts every operation. -/
def World.serving (feed : gofeed.Feed) (now : Time) : World :=
  { NewRequest := fun _ => none
    Do := fun _ => .ok { StatusCode := 200, ETag := "v2", LastModified := "", Body := "xml" }
    Parse := fun _ => .ok feed
    FormatHTTP := fun _ => ""
    ParseHTTP := fun _ => none
    Now := now
    FindCollection := fun _ => none
    SaveFeedItem := fun _ _ => none
    SaveFeed := fun _ _ => none
    NewId := "feed2" }

/-- A world like `World.serving`, but whose server answers every request with
status 304 and no body. -/
def World.notModified (now : Time) : World :=
  { World.serving ⟨"", "", none, []⟩ now with
    Do := fun _ => .ok { StatusCode := 304, ETag := "", LastModified := "", Body := "" } }

/-- A world like `World.serving`, but whose transport fails on every request. -/
def World.unreachable (now : Time) : World :=
  { World.serving ⟨"", "", none, []⟩ now with
    Do := fun _ => .error (.msg "dial tcp: connection refused") }

/-- A world like `World.serving`, but whose parser rejects every body. -/
def World.unparseable (now : Time) : World :=
  { World.serving ⟨"", "", none, []⟩ now with
    Parse := fun _ => .error (.msg "Failed to detect feed type") }

/-- A feed item with the given guid and publish time. -/
def sampleItem (guid : String) (published : Option Time) : gofeed.Item :=
  { Title := "title", Description := "text", Link := "link", GUID := guid,
    PublishedParsed := published }

/-- A feed with the given items. -/
def sampleFeed (items : List gofeed.Item) : gofeed.Feed :=
  { Title := "news", Description := "all the news", Image := none, Items := items }

/-- The feed `feed1` of user `ann`, last fetched at second 100. -/
def sampleFeedRecord : FeedRecord :=
  { id := "feed1", user := "ann", feed_url := "https://example.org/rss",
    name := "news", description := "all the news", image_url := "",
    etag := "v1", modified := "", last_fetched_at := 100000000000,
    auto_add_feed_items_to_library := false }

/-- A store with the feed `feed1`, one stored item of it with guid `g1` published at
second 50, and one link of user `ann`. -/
def sampleStore : App :=
  { feeds := [sampleFeedRecord]
    feed_items := [{ user := "ann", feed := "feed1", title := "title",
                     pub_date := some 50000000000, guid := "g1", description := "text",
                     url := "link" }]
    links := [{ id := "link1", user := "ann" }] }

/-- A request of the authenticated record `caller` with path parameter `id` and form
value `url` as given; every other parameter is empty. -/
def sampleContext (caller : String) (id url : String) : Context :=
  { AuthRecordId := some caller
    FormValue := fun name => if name == "url" then url else ""
    PathParam := fun name => if name == "id" then id else "" }

/-! ## Lemmas on stored records -/

theorem count_append_record (app : App) (r : FeedItemRecord) (feed guid : String) :
    countFeedGuid { app with feed_items := app.feed_items ++ [r] } feed guid =
      countFeedGuid app feed guid + (if r.feed = feed ∧ r.guid = guid then 1 else 0) := by
  unfold countFeedGuid
  simp only [List.countP_append, List.countP_cons, List.countP_nil, Bool.and_eq_true,
    beq_iff_eq, Nat.zero_add]

theorem newFeedItemRecord_key (user feedId : String) (item : gofeed.Item)
    (r : FeedItemRecord) (h : newFeedItemRecord user feedId item = some r) :
    r.feed = feedId ∧ r.guid = item.GUID := by
  unfold newFeedItemRecord at h
  split at h
  · cases h
  · cases h
    exact ⟨rfl, rfl⟩

theorem newFeedItemRecord_undated (user feedId : String) (item : gofeed.Item)
    (hpub : item.PublishedParsed = none) : newFeedItemRecord user feedId item = none := by
  simp [newFeedItemRecord, hpub]

theorem skipsAsOld_of_not_after (item : gofeed.Item) (T P : Time)
    (hpub : item.PublishedParsed = some P) (hle : ¬ T < P) : skipsAsOld item T = true := by
  simp [skipsAsOld, hpub, Time.After, hle]

theorem skipsAsOld_of_after (item : gofeed.Item) (T P : Time)
    (hpub : item.PublishedParsed = some P) (hlt : T < P) : skipsAsOld item T = false := by
  simp [skipsAsOld, hpub, Time.After, hlt]

theorem skipsAsOld_of_undated (item : gofeed.Item) (T : Time)
    (hpub : item.PublishedParsed = none) : skipsAsOld item T = false := by
  simp [skipsAsOld, hpub]

/-! ## Lemmas on the loop of `SaveNewFeedItems` -/

/-! ### The five ways one round of the loop can go -/

theorem saveItemsLoop_cons_old (w : World) (user feedId : String) (T : Time) (app : App)
    (item : gofeed.Item) (rest : List gofeed.Item) (hold : skipsAsOld item T = true) :
    saveItemsLoop w user feedId T app (item :: rest) =
      saveItemsLoop w user feedId T app rest := by
  simp [saveItemsLoop, hold]

theorem saveItemsLoop_cons_seen (w : World) (user feedId : String) (T : Time) (app : App)
    (item : gofeed.Item) (rest : List gofeed.Item) (r : FeedItemRecord)
    (hseen : FindFirstRecordByFilter app.feed_items feedId item.GUID = some r) :
    saveItemsLoop w user feedId T app (item :: rest) =
      saveItemsLoop w user feedId T app rest := by
  simp [saveItemsLoop, hseen]

theorem saveItemsLoop_cons_panics (w : World) (user feedId : String) (T : Time) (app : App)
    (item : gofeed.Item) (rest : List gofeed.Item)
    (hnew : skipsAsOld item T = false)
    (hfind : FindFirstRecordByFilter app.feed_items feedId item.GUID = none)
    (hrecord : newFeedItemRecord user feedId item = none) :
    saveItemsLoop w user feedId T app (item :: rest) = (app, .nilPointerDereference) := by
  simp [saveItemsLoop, hnew, hfind, hrecord]

theorem saveItemsLoop_cons_rejected (w : World) (user feedId : String) (T : Time) (app : App)
    (item : gofeed.Item) (rest : List gofeed.Item) (r : FeedItemRecord) (err : Error)
    (hnew : skipsAsOld item T = false)
    (hfind : FindFirstRecordByFilter app.feed_items feedId item.GUID = none)
    (hrecord : newFeedItemRecord user feedId item = some r)
    (hsave : w.SaveFeedItem app.feed_items r = some err) :
    saveItemsLoop w user feedId T app (item :: rest) = (app, .returned (some err)) := by
  simp [saveItemsLoop, hnew, hfind, hrecord, SaveFeedItemRecord, hsave]

theorem saveItemsLoop_cons_insert (w : World) (user feedId : String) (T : Time) (app : App)
    (item : gofeed.Item) (rest : List gofeed.Item) (r : FeedItemRecord)
    (hnew : skipsAsOld item T = false)
    (hfind : FindFirstRecordByFilter app.feed_items feedId item.GUID = none)
    (hrecord : newFeedItemRecord user feedId item = some r)
    (hsave : w.SaveFeedItem app.feed_items r = none) :
    saveItemsLoop w user feedId T app (item :: rest) =
      saveItemsLoop w user feedId T { app with feed_items := app.feed_items ++ [r] }
        rest := by
  simp [saveItemsLoop, hnew, hfind, hrecord, SaveFeedItemRecord, hsave]

/-- Running the loop over `pre ++ rest` is running it over `pre` and, when that returned
with no error, over `rest` from the store it left. -/
theorem saveItemsLoop_append (w : World) (user feedId : String) (T : Time)
    (pre rest : List gofeed.Item) (app : App) :
    saveItemsLoop w user feedId T app (pre ++ rest) =
      match saveItemsLoop w user feedId T app pre with
      | (app1, .returned none) => saveItemsLoop w user feedId T app1 rest
      | ended => ended := by
  induction pre generalizing app with
  | nil => simp [saveItemsLoop]
  | cons item pre ih =>
    rw [List.cons_append]
    cases hold : skipsAsOld item T with
    | true =>
      rw [saveItemsLoop_cons_old _ _ _ _ _ _ _ hold, saveItemsLoop_cons_old _ _ _ _ _ _ _ hold]
      exact ih app
    | false =>
      cases hfind : FindFirstRecordByFilter app.feed_items feedId item.GUID with
      | some r =>
        rw [saveItemsLoop_cons_seen _ _ _ _ _ _ _ r hfind,
          saveItemsLoop_cons_seen _ _ _ _ _ _ _ r hfind]
        exact ih app
      | none =>
        cases hrecord : newFeedItemRecord user feedId item with
        | none =>
          rw [saveItemsLoop_cons_panics _ _ _ _ _ _ _ hold hfind hrecord,
            saveItemsLoop_cons_panics _ _ _ _ _ _ _ hold hfind hrecord]
        | some r =>
          cases hsave : w.SaveFeedItem app.feed_items r with
          | some err =>
            rw [saveItemsLoop_cons_rejected _ _ _ _ _ _ _ r err hold hfind hrecord hsave,
              saveItemsLoop_cons_rejected _ _ _ _ _ _ _ r err hold hfind hrecord hsave]
          | none =>
            rw [saveItemsLoop_cons_insert _ _ _ _ _ _ _ r hold hfind hrecord hsave,
              saveItemsLoop_cons_insert _ _ _ _ _ _ _ r hold hfind hrecord hsave]
            exact ih _

/-- The loop only appends `feed_items` records and touches nothing else. -/
theorem saveItemsLoop_frame (w : World) (user feedId : String) (T : Time)
    (items : List gofeed.Item) (app : App) :
    ∃ added, (saveItemsLoop w user feedId T app items).1 =
      { app with feed_items := app.feed_items ++ added } := by
  induction items generalizing app with
  | nil => exact ⟨[], by simp [saveItemsLoop]⟩
  | cons item rest ih =>
    cases hold : skipsAsOld item T with
    | true => rw [saveItemsLoop_cons_old _ _ _ _ _ _ _ hold]; exact ih app
    | false =>
      cases hfind : FindFirstRecordByFilter app.feed_items feedId item.GUID with
      | some r => rw [saveItemsLoop_cons_seen _ _ _ _ _ _ _ r hfind]; exact ih app
      | none =>
        cases hrecord : newFeedItemRecord user feedId item with
        | none =>
          rw [saveItemsLoop_cons_panics _ _ _ _ _ _ _ hold hfind hrecord]
          exact ⟨[], by simp⟩
        | some r =>
          cases hsave : w.SaveFeedItem app.feed_items r with
          | some err =>
            rw [saveItemsLoop_cons_rejected _ _ _ _ _ _ _ r err hold hfind hrecord hsave]
            exact ⟨[], by simp⟩
          | none =>
            rw [saveItemsLoop_cons_insert _ _ _ _ _ _ _ r hold hfind hrecord hsave]
            obtain ⟨added, h⟩ := ih { app with feed_items := app.feed_items ++ [r] }
            exact ⟨r :: added, by rw [h]; simp⟩

/-- A (feed, guid) pair with no stored record, all of whose items in the feed are
stopped by the recency test, has no stored record after the loop, however the loop
ends. -/
theorem saveItemsLoop_count_all_old (w : World) (user feedId : String) (T : Time)
    (items : List gofeed.Item) (app : App) (guid : String)
    (hunseen : countFeedGuid app feedId guid = 0)
    (hitems : ∀ item ∈ items, item.GUID = guid → skipsAsOld item T = true) :
    countFeedGuid (saveItemsLoop w user feedId T app items).1 feedId guid = 0 := by
  induction items generalizing app with
  | nil => simpa [saveItemsLoop] using hunseen
  | cons item rest ih =>
    have hrest : ∀ it ∈ rest, it.GUID = guid → skipsAsOld it T = true :=
      fun it hmem => hitems it (List.mem_cons_of_mem _ hmem)
    cases hold : skipsAsOld item T with
    | true => rw [saveItemsLoop_cons_old _ _ _ _ _ _ _ hold]; exact ih app hunseen hrest
    | false =>
      cases hfind : FindFirstRecordByFilter app.feed_items feedId item.GUID with
      | some r => rw [saveItemsLoop_cons_seen _ _ _ _ _ _ _ r hfind]; exact ih app hunseen hrest
      | none =>
        cases hrecord : newFeedItemRecord user feedId item with
        | none =>
          rw [saveItemsLoop_cons_panics _ _ _ _ _ _ _ hold hfind hrecord]
          exact hunseen
        | some r =>
          cases hsave : w.SaveFeedItem app.feed_items r with
          | some err =>
            rw [saveItemsLoop_cons_rejected _ _ _ _ _ _ _ r err hold hfind hrecord hsave]
            exact hunseen
          | none =>
            rw [saveItemsLoop_cons_insert _ _ _ _ _ _ _ r hold hfind hrecord hsave]
            refine ih _ ?_ hrest
            rw [count_append_record, hunseen, if_neg]
            rintro ⟨-, hg⟩
            rw [(newFeedItemRecord_key user feedId item r hrecord).2] at hg
            rw [hitems item (List.mem_cons_self _ _) hg] at hold
            cases hold

/-! ## Lemmas on whole calls -/

theorem SaveNewFeedItems_eq_loop (w : World) (app : App) (feed : gofeed.Feed)
    (user feedId : String) (T : Time) (hcollection : w.FindCollection "feed_items" = none) :
    SaveNewFeedItems w app feed user feedId T =
      saveItemsLoop w user feedId T app feed.Items := by
  simp [SaveNewFeedItems, hcollection]

theorem SaveNewFeedItems_no_collection (w : World) (app : App) (feed : gofeed.Feed)
    (user feedId : String) (T : Time) (err : Error)
    (hcollection : w.FindCollection "feed_items" = some err) :
    SaveNewFeedItems w app feed user feedId T = (app, .returned (some err)) := by
  simp [SaveNewFeedItems, hcollection]

theorem SaveNewFeedItems_feeds (w : World) (app : App) (feed : gofeed.Feed)
    (user feedId : String) (T : Time) :
    (SaveNewFeedItems w app feed user feedId T).1.feeds = app.feeds := by
  unfold SaveNewFeedItems
  split
  · rfl
  · obtain ⟨added, h⟩ := saveItemsLoop_frame w user feedId T feed.Items app
    rw [h]

theorem SaveNewFeedItems_count_all_old (w : World) (app : App) (feed : gofeed.Feed)
    (user feedId : String) (T : Time) (guid : String)
    (hunseen : countFeedGuid app feedId guid = 0)
    (hitems : ∀ item ∈ feed.Items, item.GUID = guid → skipsAsOld item T = true) :
    countFeedGuid (SaveNewFeedItems w app feed user feedId T).1 feedId guid = 0 := by
  cases hc : w.FindCollection "feed_items" with
  | some err => rw [SaveNewFeedItems_no_collection _ _ _ _ _ _ err hc]; exact hunseen
  | none =>
    rw [SaveNewFeedItems_eq_loop _ _ _ _ _ _ hc]
    exact saveItemsLoop_count_all_old w user feedId T feed.Items app guid hunseen hitems

/-- Dropping from the feed an item that the recency test stops changes nothing. -/
theorem SaveNewFeedItems_drop_old (w : World) (app : App) (feed : gofeed.Feed)
    (user feedId : String) (T : Time) (pre post : List gofeed.Item) (item : gofeed.Item)
    (hitems : feed.Items = pre ++ item :: post) (hold : skipsAsOld item T = true) :
    SaveNewFeedItems w app feed user feedId T =
      SaveNewFeedItems w app { feed with Items := pre ++ post } user feedId T := by
  cases hc : w.FindCollection "feed_items" with
  | some err =>
    rw [SaveNewFeedItems_no_collection _ _ _ _ _ _ err hc,
      SaveNewFeedItems_no_collection _ _ _ _ _ _ err hc]
  | none =>
    rw [SaveNewFeedItems_eq_loop _ _ _ _ _ _ hc, SaveNewFeedItems_eq_loop _ _ _ _ _ _ hc,
      hitems, saveItemsLoop_append, saveItemsLoop_append]
    rcases saveItemsLoop w user feedId T app pre with ⟨app1, (_ | err) | _⟩
    · exact saveItemsLoop_cons_old w user feedId T app1 item post hold
    · rfl
    · rfl

/-! ## Lemmas on `LoadFeedFromURL` and `FetchNewFeedItems` -/

theorem FindFeedById_id (app : App) (feedId : String) (feed : FeedRecord)
    (hfeed : FindFeedById app feedId = some feed) : feed.id = feedId := by
  unfold FindFeedById at hfeed
  have h := List.find?_some hfeed
  simpa using h

theorem find_replaced (feeds : List FeedRecord) (feedId : String) (feed new : FeedRecord)
    (hfeed : feeds.find? (fun r => r.id == feedId) = some feed) (hid : new.id = feedId) :
    (feeds.map (fun r => if r.id == feedId then new else r)).find?
      (fun r => r.id == feedId) = some new := by
  induction feeds with
  | nil => cases hfeed
  | cons r rest ih =>
    by_cases hr : r.id = feedId
    · simp [List.find?_cons, hr, hid]
    · have hr2 : (r.id == feedId) = false := by simpa using hr
      rw [List.find?_cons, hr2] at hfeed
      rw [List.map_cons, hr2, List.find?_cons]
      simp only [Bool.false_eq_true, if_false, hr2]
      exact ih hfeed

theorem FindFeedById_withFeed (app : App) (feedId : String) (feed new : FeedRecord)
    (hfeed : FindFeedById app feedId = some feed) (hid : new.id = feedId) :
    FindFeedById (app.withFeed feedId new) feedId = some new :=
  find_replaced app.feeds feedId feed new hfeed hid

theorem LoadFeedFromURL_not_modified (w : World) (url etag : String) (t : Time)
    (resp : Response) (hreq : w.NewRequest url = none)
    (hdo : w.Do (conditionalGet w url etag t) = .ok resp)
    (hstatus : resp.StatusCode = StatusNotModified) :
    LoadFeedFromURL w url etag t = .ok { Feed := none, ETag := "", LastModified := "" } := by
  simp [LoadFeedFromURL, hreq, hdo, hstatus]

theorem FetchNewFeedItems_of_unchanged (w : World) (app : App) (feedId : String)
    (feed : FeedRecord) (r : FeedResult)
    (hfeed : FindFeedById app feedId = some feed)
    (hload : LoadFeedFromURL w feed.feed_url feed.etag
      ((w.ParseHTTP feed.modified).getD Time.zero) = .ok r)
    (hnil : r.Feed = none) :
    FetchNewFeedItems w app feedId = (app, .returned none) := by
  unfold FetchNewFeedItems
  simp only [hfeed, hload, hnil]

theorem FetchNewFeedItems_of_load_error (w : World) (app : App) (feedId : String)
    (feed : FeedRecord) (err : Error)
    (hfeed : FindFeedById app feedId = some feed)
    (hload : LoadFeedFromURL w feed.feed_url feed.etag
      ((w.ParseHTTP feed.modified).getD Time.zero) = .error err) :
    FetchNewFeedItems w app feedId =
      (app, .returned (some (.wrap "failed to load feed from URL" err))) := by
  unfold FetchNewFeedItems
  simp only [hfeed, hload]

theorem FetchNewFeedItems_of_save_error (w : World) (app : App) (feedId : String)
    (feed : FeedRecord) (r : FeedResult) (parsed : gofeed.Feed) (err : Error)
    (hfeed : FindFeedById app feedId = some feed)
    (hload : LoadFeedFromURL w feed.feed_url feed.etag
      ((w.ParseHTTP feed.modified).getD Time.zero) = .ok r)
    (hparsed : r.Feed = some parsed)
    (hsave : w.SaveFeed app.feeds (feed.refreshed r w.Now) = some err) :
    FetchNewFeedItems w app feedId =
      (app, .returned (some (.wrap "failed to update feed record" err))) := by
  unfold FeedRecord.refreshed at hsave
  unfold FetchNewFeedItems
  simp only [hfeed, hload, hparsed, SaveFeedRecord, hsave]

theorem FetchNewFeedItems_of_parsed (w : World) (app : App) (feedId : String)
    (feed : FeedRecord) (r : FeedResult) (parsed : gofeed.Feed)
    (hfeed : FindFeedById app feedId = some feed)
    (hload : LoadFeedFromURL w feed.feed_url feed.etag
      ((w.ParseHTTP feed.modified).getD Time.zero) = .ok r)
    (hparsed : r.Feed = some parsed)
    (hsave : w.SaveFeed app.feeds (feed.refreshed r w.Now) = none) :
    FetchNewFeedItems w app feedId =
      match SaveNewFeedItems w (app.withFeed feedId (feed.refreshed r w.Now)) parsed
          feed.user feedId feed.last_fetched_at with
      | (app2, .returned (some err)) =>
        (app2, .returned (some (.wrap "failed to save new feed items" err)))
      | (app2, .returned none) => (app2, .returned none)
      | (app2, .nilPointerDereference) => (app2, .nilPointerDereference) := by
  have hid := FindFeedById_id app feedId feed hfeed
  subst hid
  unfold FeedRecord.refreshed at hsave
  unfold FetchNewFeedItems
  simp only [hfeed, hload, hparsed, SaveFeedRecord, hsave, App.withFeed,
    FeedRecord.refreshed]

theorem FetchNewFeedItems_of_parsed_ends (w : World) (app : App) (feedId : String)
    (feed : FeedRecord) (r : FeedResult) (parsed : gofeed.Feed)
    (hfeed : FindFeedById app feedId = some feed)
    (hload : LoadFeedFromURL w feed.feed_url feed.etag
      ((w.ParseHTTP feed.modified).getD Time.zero) = .ok r)
    (hparsed : r.Feed = some parsed)
    (hsave : w.SaveFeed app.feeds (feed.refreshed r w.Now) = none) :
    (FetchNewFeedItems w app feedId).1 =
        (SaveNewFeedItems w (app.withFeed feedId (feed.refreshed r w.Now)) parsed
          feed.user feedId feed.last_fetched_at).1 ∧
      ((FetchNewFeedItems w app feedId).2 = .returned none ↔
        (SaveNewFeedItems w (app.withFeed feedId (feed.refreshed r w.Now)) parsed
          feed.user feedId feed.last_fetched_at).2 = .returned none) ∧
      ((FetchNewFeedItems w app feedId).2 = .nilPointerDereference ↔
        (SaveNewFeedItems w (app.withFeed feedId (feed.refreshed r w.Now)) parsed
          feed.user feedId feed.last_fetched_at).2 = .nilPointerDereference) ∧
      (∀ err, (SaveNewFeedItems w (app.withFeed feedId (feed.refreshed r w.Now)) parsed
          feed.user feedId feed.last_fetched_at).2 = .returned (some err) →
        (FetchNewFeedItems w app feedId).2 =
          .returned (some (.wrap "failed to save new feed items" err))) := by
  rw [FetchNewFeedItems_of_parsed w app feedId feed r parsed hfeed hload hparsed hsave]
  rcases SaveNewFeedItems w (app.withFeed feedId (feed.refreshed r w.Now)) parsed
    feed.user feedId feed.last_fetched_at with ⟨app2, (_ | err) | _⟩ <;> simp

/-! ## C1: at most one FeedItem per (feed, guid) -/

/-- C1 (the code departs from it). The store holds no two FeedItems with the same
(feed, guid) pair. The parsed feed has two items with an empty guid, both published
after the boundary. The filter of the lookup at `feeds.go:72` never matches a stored
empty guid and the error of the lookup is discarded, so both lookups find nothing, both
records are written, the call returns no error, and the store ends with two FeedItems
of the pair (`feed1`, empty guid). -/
theorem empty_guid_stored_twice :
    UniqueFeedGuid sampleStore ∧
    (SaveNewFeedItems (World.serving (sampleFeed []) 0) sampleStore
      (sampleFeed [sampleItem "" (some 11), sampleItem "" (some 12)])
      "ann" "feed1" 10).2 = .returned none ∧
    countFeedGuid (SaveNewFeedItems (World.serving (sampleFeed []) 0) sampleStore
      (sampleFeed [sampleItem "" (some 11), sampleItem "" (some 12)])
      "ann" "feed1" 10).1 "feed1" "" = 2 ∧
    ¬ UniqueFeedGuid (SaveNewFeedItems (World.serving (sampleFeed []) 0) sampleStore
      (sampleFeed [sampleItem "" (some 11), sampleItem "" (some 12)])
      "ann" "feed1" 10).1 := by
  refine ⟨by decide, by decide, by decide, by decide⟩

/-! ## C2: the recency boundary -/

/-- C2 (the code departs from it). For every boundary `T`: the parsed feed carries an
undated item `u` and, after it, an item `g3` published at `T + 1`; neither guid is
stored and the store accepts every write. The loop panics on `u` at `feeds.go:82`
before it reaches `g3`: the call does not return, the store is left as it was, and no
FeedItem is inserted for the item published after the boundary. -/
theorem dated_item_behind_undated_item_not_reached (T : Time) :
    countFeedGuid sampleStore "feed1" "g3" = 0 ∧
    SaveNewFeedItems (World.serving (sampleFeed []) 0) sampleStore
        (sampleFeed [sampleItem "u" none, sampleItem "g3" (some (T + 1))])
        "ann" "feed1" T =
      (sampleStore, .nilPointerDereference) ∧
    countFeedGuid (SaveNewFeedItems (World.serving (sampleFeed []) 0) sampleStore
      (sampleFeed [sampleItem "u" none, sampleItem "g3" (some (T + 1))])
      "ann" "feed1" T).1 "feed1" "g3" = 0 := by
  have hcall : SaveNewFeedItems (World.serving (sampleFeed []) 0) sampleStore
      (sampleFeed [sampleItem "u" none, sampleItem "g3" (some (T + 1))])
      "ann" "feed1" T = (sampleStore, .nilPointerDereference) := by
    rw [SaveNewFeedItems_eq_loop _ _ _ _ _ _ rfl]
    exact saveItemsLoop_cons_panics _ _ _ _ _ _ _ rfl (by decide) rfl
  refine ⟨by decide, hcall, ?_⟩
  rw [hcall]
  decide

/-! ## C3: items with no publish timestamp -/

/-- C3 (the code departs from it). Let `item` be an item of the parsed feed with no
publish timestamp, reached by the loop of `SaveNewFeedItems` (the items before it made
the call neither return an error nor panic) when the lookup finds no record for its
guid. Whatever the boundary, the recency test does not stop it, no record can be built
for it (`newItem.Set("pub_date", item.PublishedParsed)` panics on the nil pointer at
`feeds.go:82`), and the call ends in that panic with the store as the earlier items
left it: the item is not inserted. -/
theorem undated_unseen_item_panics (w : World) (app app1 : App) (feed : gofeed.Feed)
    (user feedId : String) (T : Time) (pre post : List gofeed.Item) (item : gofeed.Item)
    (hitems : feed.Items = pre ++ item :: post)
    (hpub : item.PublishedParsed = none)
    (hpre : SaveNewFeedItems w app { feed with Items := pre } user feedId T =
      (app1, .returned none))
    (hunseen : FindFirstRecordByFilter app1.feed_items feedId item.GUID = none) :
    skipsAsOld item T = false ∧
    newFeedItemRecord user feedId item = none ∧
    SaveNewFeedItems w app feed user feedId T = (app1, .nilPointerDereference) := by
  have hnew := skipsAsOld_of_undated item T hpub
  have hrecord := newFeedItemRecord_undated user feedId item hpub
  refine ⟨hnew, hrecord, ?_⟩
  cases hc : w.FindCollection "feed_items" with
  | some err =>
    rw [SaveNewFeedItems_no_collection _ _ _ _ _ _ err hc] at hpre
    cases hpre
  | none =>
    rw [SaveNewFeedItems_eq_loop _ _ _ _ _ _ hc] at hpre
    rw [SaveNewFeedItems_eq_loop _ _ _ _ _ _ hc, hitems, saveItemsLoop_append]
    dsimp only at hpre
    rw [hpre]
    exact saveItemsLoop_cons_panics w user feedId T app1 item post hnew hunseen hrecord

/-- C3 at the failing input: a feed whose only item is undated and unseen. -/
theorem undated_unseen_item_panics_witness :
    countFeedGuid sampleStore "feed1" "g2" = 0 ∧
    SaveNewFeedItems (World.serving (sampleFeed []) 0) sampleStore
        (sampleFeed [sampleItem "g2" none]) "ann" "feed1" 0 =
      (sampleStore, .nilPointerDereference) :=
  ⟨by decide,
    (undated_unseen_item_panics (World.serving (sampleFeed []) 0) sampleStore sampleStore
      (sampleFeed [sampleItem "g2" none]) "ann" "feed1" 0 [] [] (sampleItem "g2" none)
      rfl rfl rfl (by decide)).2.2⟩

/-! ## C4: a fetch that reports "unchanged" -/

/-- C4. For a stored feed, when `LoadFeedFromURL` returns a result with no parsed feed
(as it does on HTTP 304), `FetchNewFeedItems` returns no error and the store it leaves
is the store it was given: the feed record (with its `etag`, `modified` and
`last_fetched_at`) is as before, no record is saved and no FeedItem is inserted. -/
theorem fetch_unchanged_leaves_store (w : World) (app : App) (feedId : String)
    (feed : FeedRecord) (hfeed : FindFeedById app feedId = some feed) :
    (∀ r, LoadFeedFromURL w feed.feed_url feed.etag
        ((w.ParseHTTP feed.modified).getD Time.zero) = .ok r → r.Feed = none →
      FetchNewFeedItems w app feedId = (app, .returned none) ∧
      FindFeedById (FetchNewFeedItems w app feedId).1 feedId = some feed ∧
      (FetchNewFeedItems w app feedId).1.feed_items = app.feed_items) ∧
    (∀ resp, w.NewRequest feed.feed_url = none →
      w.Do (conditionalGet w feed.feed_url feed.etag
        ((w.ParseHTTP feed.modified).getD Time.zero)) = .ok resp →
      resp.StatusCode = StatusNotModified →
      FetchNewFeedItems w app feedId = (app, .returned none)) := by
  constructor
  · intro r hload hnil
    have h := FetchNewFeedItems_of_unchanged w app feedId feed r hfeed hload hnil
    rw [h]
    exact ⟨rfl, hfeed, rfl⟩
  · intro resp hreq hdo hstatus
    exact FetchNewFeedItems_of_unchanged w app feedId feed _ hfeed
      (LoadFeedFromURL_not_modified w _ _ _ resp hreq hdo hstatus) rfl

/-- C4 at a concrete input: the server answers 304 for `feed1`. -/
theorem fetch_unchanged_leaves_store_witness :
    FindFeedById sampleStore "feed1" = some sampleFeedRecord ∧
    FetchNewFeedItems (World.notModified 200000000005) sampleStore "feed1" =
      (sampleStore, .returned none) :=
  ⟨by decide,
    (fetch_unchanged_leaves_store (World.notModified 200000000005) sampleStore "feed1"
      sampleFeedRecord (by decide)).2 ⟨304, "", "", ""⟩ rfl rfl rfl⟩

/-! ## C5: the feed record is written whenever a feed was parsed -/

/-- C5. For a stored feed, when `LoadFeedFromURL` returns a parsed feed (whatever its
items), `FetchNewFeedItems` saves the feed record once, with `etag` the ETag of the
response, `modified` its Last-Modified (either may be empty), `last_fetched_at` the
current time as `time.RFC3339` renders it (the clock reading cut to the whole second)
and every other field kept. If the store rejects that save the call returns the error
and the store is as before; otherwise the stored feed record is that record, whether or
not any item is inserted afterwards and however the item loop ends. -/
theorem fetch_writes_validators (w : World) (app : App) (feedId : String)
    (feed : FeedRecord) (r : FeedResult) (parsed : gofeed.Feed)
    (hfeed : FindFeedById app feedId = some feed)
    (hload : LoadFeedFromURL w feed.feed_url feed.etag
      ((w.ParseHTTP feed.modified).getD Time.zero) = .ok r)
    (hparsed : r.Feed = some parsed) :
    (feed.refreshed r w.Now).etag = r.ETag ∧
    (feed.refreshed r w.Now).modified = r.LastModified ∧
    (feed.refreshed r w.Now).last_fetched_at = RFC3339 w.Now ∧
    (RFC3339 w.Now ≤ w.Now ∧ w.Now - RFC3339 w.Now < 1000000000) ∧
    (∀ err, w.SaveFeed app.feeds (feed.refreshed r w.Now) = some err →
      FetchNewFeedItems w app feedId =
        (app, .returned (some (.wrap "failed to update feed record" err)))) ∧
    (w.SaveFeed app.feeds (feed.refreshed r w.Now) = none →
      (FetchNewFeedItems w app feedId).1.feeds =
        app.feeds.map (fun x => if x.id == feedId then feed.refreshed r w.Now else x) ∧
      FindFeedById (FetchNewFeedItems w app feedId).1 feedId =
        some (feed.refreshed r w.Now)) := by
  refine ⟨rfl, rfl, rfl, ?_, ?_, ?_⟩
  · unfold RFC3339
    have h1 := Int.emod_nonneg w.Now (show (1000000000 : Int) ≠ 0 by decide)
    have h2 := Int.emod_lt_of_pos w.Now (show (0 : Int) < 1000000000 by decide)
    constructor
    · exact Int.sub_le_self _ h1
    · rw [Int.sub_sub_self]; exact h2
  · intro err hsave
    exact FetchNewFeedItems_of_save_error w app feedId feed r parsed err hfeed hload
      hparsed hsave
  · intro hsave
    have hfst := (FetchNewFeedItems_of_parsed_ends w app feedId feed r parsed hfeed hload
      hparsed hsave).1
    have hfeeds : (FetchNewFeedItems w app feedId).1.feeds =
        (app.withFeed feedId (feed.refreshed r w.Now)).feeds := by
      rw [hfst, SaveNewFeedItems_feeds]
    refine ⟨hfeeds, ?_⟩
    have hfound := FindFeedById_withFeed app feedId feed (feed.refreshed r w.Now) hfeed
      (FindFeedById_id app feedId feed hfeed)
    unfold FindFeedById at hfound ⊢
    rw [hfeeds]
    exact hfound

/-- C5 at a concrete input: the server answers 200 with ETag `v2`, no Last-Modified and
a feed with zero items, five nanoseconds after second 200. -/
theorem fetch_writes_validators_witness :
    FindFeedById sampleStore "feed1" = some sampleFeedRecord ∧
    FindFeedById
        (FetchNewFeedItems (World.serving (sampleFeed []) 200000000005) sampleStore
          "feed1").1 "feed1" =
      some { sampleFeedRecord with
        etag := "v2", modified := "", last_fetched_at := 200000000000 } :=
  ⟨by decide,
    ((fetch_writes_validators (World.serving (sampleFeed []) 200000000005) sampleStore
      "feed1" sampleFeedRecord ⟨some (sampleFeed []), "v2", ""⟩ (sampleFeed [])
      (by decide) rfl rfl).2.2.2.2.2 rfl).2⟩

/-! ## C6: the boundary is the previous `last_fetched_at` -/

/-- C6. For a stored feed and a cycle whose fetch returns a parsed feed (and whose save
of the feed record is accepted), `FetchNewFeedItems` ends as the call of
`SaveNewFeedItems` on the parsed feed with boundary the `last_fetched_at` the feed
record held before the cycle, not the clock reading written during the cycle and not a
publish date: it leaves the store that call leaves, returns no error exactly when that
call does, panics exactly when that call does, and returns that call's error wrapped.
It shows in the store: a guid with no stored record whose items are all published at or
before the previous `last_fetched_at` has no stored record after the cycle. -/
theorem fetch_boundary_is_previous_fetch (w : World) (app : App) (feedId : String)
    (feed : FeedRecord) (r : FeedResult) (parsed : gofeed.Feed)
    (hfeed : FindFeedById app feedId = some feed)
    (hload : LoadFeedFromURL w feed.feed_url feed.etag
      ((w.ParseHTTP feed.modified).getD Time.zero) = .ok r)
    (hparsed : r.Feed = some parsed)
    (hsave : w.SaveFeed app.feeds (feed.refreshed r w.Now) = none) :
    (FetchNewFeedItems w app feedId).1 =
      (SaveNewFeedItems w (app.withFeed feedId (feed.refreshed r w.Now)) parsed
        feed.user feedId feed.last_fetched_at).1 ∧
    ((FetchNewFeedItems w app feedId).2 = .returned none ↔
      (SaveNewFeedItems w (app.withFeed feedId (feed.refreshed r w.Now)) parsed
        feed.user feedId feed.last_fetched_at).2 = .returned none) ∧
    ((FetchNewFeedItems w app feedId).2 = .nilPointerDereference ↔
      (SaveNewFeedItems w (app.withFeed feedId (feed.refreshed r w.Now)) parsed
        feed.user feedId feed.last_fetched_at).2 = .nilPointerDereference) ∧
    (∀ err, (SaveNewFeedItems w (app.withFeed feedId (feed.refreshed r w.Now)) parsed
        feed.user feedId feed.last_fetched_at).2 = .returned (some err) →
      (FetchNewFeedItems w app feedId).2 =
        .returned (some (.wrap "failed to save new feed items" err))) ∧
    (∀ guid, countFeedGuid app feedId guid = 0 →
      (∀ item ∈ parsed.Items, item.GUID = guid →
        ∃ P, item.PublishedParsed = some P ∧ P ≤ feed.last_fetched_at) →
      countFeedGuid (FetchNewFeedItems w app feedId).1 feedId guid = 0) := by
  obtain ⟨hfst, hnone, hpanic, herr⟩ := FetchNewFeedItems_of_parsed_ends w app feedId feed
    r parsed hfeed hload hparsed hsave
  refine ⟨hfst, hnone, hpanic, herr, ?_⟩
  intro guid hunseen hitems
  rw [hfst]
  have hunseen1 : countFeedGuid (app.withFeed feedId (feed.refreshed r w.Now)) feedId
      guid = 0 := hunseen
  apply SaveNewFeedItems_count_all_old w _ parsed feed.user feedId feed.last_fetched_at
    guid hunseen1
  intro item hitem hguid
  obtain ⟨P, hpub, hle⟩ := hitems item hitem hguid
  exact skipsAsOld_of_not_after item _ P hpub (not_lt.mpr hle)

/-- C6 at a concrete input: `feed1` was last fetched at second 100 and the cycle runs
just after second 200 on a feed with the unseen items `g2` published at second 150 and
`g3` published at second 50. The cycle ends as `SaveNewFeedItems` with boundary second
100: `g2`, published before the new clock reading, is inserted, `g3` is not. -/
theorem fetch_boundary_is_previous_fetch_witness :
    FindFeedById sampleStore "feed1" = some sampleFeedRecord ∧
    (FetchNewFeedItems
        (World.serving (sampleFeed [sampleItem "g2" (some 150000000000),
          sampleItem "g3" (some 50000000000)]) 200000000005)
        sampleStore "feed1").1 =
      (SaveNewFeedItems
        (World.serving (sampleFeed [sampleItem "g2" (some 150000000000),
          sampleItem "g3" (some 50000000000)]) 200000000005)
        (sampleStore.withFeed "feed1"
          { sampleFeedRecord with etag := "v2", last_fetched_at := 200000000000 })
        (sampleFeed [sampleItem "g2" (some 150000000000), sampleItem "g3" (some 50000000000)])
        "ann" "feed1" 100000000000).1 ∧
    countFeedGuid
      (FetchNewFeedItems
        (World.serving (sampleFeed [sampleItem "g2" (some 150000000000),
          sampleItem "g3" (some 50000000000)]) 200000000005)
        sampleStore "feed1").1 "feed1" "g3" = 0 ∧
    countFeedGuid
      (FetchNewFeedItems
        (World.serving (sampleFeed [sampleItem "g2" (some 150000000000),
          sampleItem "g3" (some 50000000000)]) 200000000005)
        sampleStore "feed1").1 "feed1" "g2" = 1 :=
  have h := fetch_boundary_is_previous_fetch
    (World.serving (sampleFeed [sampleItem "g2" (some 150000000000),
      sampleItem "g3" (some 50000000000)]) 200000000005)
    sampleStore "feed1" sampleFeedRecord
    ⟨some (sampleFeed [sampleItem "g2" (some 150000000000),
      sampleItem "g3" (some 50000000000)]), "v2", ""⟩
    (sampleFeed [sampleItem "g2" (some 150000000000), sampleItem "g3" (some 50000000000)])
    (by decide) rfl rfl rfl
  ⟨by decide, h.1,
    h.2.2.2.2 "g3" (by decide) (by
      intro item hitem hguid
      simp only [sampleFeed, List.mem_cons, List.mem_singleton, List.not_mem_nil,
        or_false] at hitem
      rcases hitem with rfl | rfl
      · exact absurd hguid (by decide)
      · exact ⟨50000000000, rfl, by decide⟩),
    by decide⟩

/-! ## C7: a failure is never reported as "unchanged" -/

/-- C7. `LoadFeedFromURL` returns a result with no parsed feed exactly when the request
could be built and sent and the response status is 304, and that result carries an empty
ETag and an empty LastModified. When the request cannot be built or sent, or the body of
a response with another status does not parse, it returns the error and no result. And
when `LoadFeedFromURL` returns an error for a stored feed, `FetchNewFeedItems` returns an
error (it does not take its "unchanged" branch) and leaves the store as it was. -/
theorem load_unchanged_iff_not_modified (w : World) (url etag : String) (t : Time) :
    ((∃ r, LoadFeedFromURL w url etag t = .ok r ∧ r.Feed = none) ↔
      (w.NewRequest url = none ∧
        ∃ resp, w.Do (conditionalGet w url etag t) = .ok resp ∧
          resp.StatusCode = StatusNotModified)) ∧
    (∀ r, LoadFeedFromURL w url etag t = .ok r → r.Feed = none →
      r.ETag = "" ∧ r.LastModified = "") ∧
    (∀ err, w.NewRequest url = some err → LoadFeedFromURL w url etag t = .error err) ∧
    (∀ err, w.NewRequest url = none → w.Do (conditionalGet w url etag t) = .error err →
      LoadFeedFromURL w url etag t = .error err) ∧
    (∀ resp err, w.NewRequest url = none →
      w.Do (conditionalGet w url etag t) = .ok resp →
      resp.StatusCode ≠ StatusNotModified → w.Parse resp.Body = .error err →
      LoadFeedFromURL w url etag t = .error err) ∧
    (∀ app feedId feed err, FindFeedById app feedId = some feed →
      LoadFeedFromURL w feed.feed_url feed.etag
        ((w.ParseHTTP feed.modified).getD Time.zero) = .error err →
      FetchNewFeedItems w app feedId =
        (app, .returned (some (.wrap "failed to load feed from URL" err)))) := by
  have hshape : ∀ r, LoadFeedFromURL w url etag t = .ok r → r.Feed = none →
      (w.NewRequest url = none ∧
        ∃ resp, w.Do (conditionalGet w url etag t) = .ok resp ∧
          resp.StatusCode = StatusNotModified) ∧ r.ETag = "" ∧ r.LastModified = "" := by
    intro r hr hnil
    unfold LoadFeedFromURL at hr
    cases hreq : w.NewRequest url with
    | some e => rw [hreq] at hr; cases hr
    | none =>
      rw [hreq] at hr
      dsimp only at hr
      cases hdo : w.Do (conditionalGet w url etag t) with
      | error e => rw [hdo] at hr; cases hr
      | ok resp =>
        rw [hdo] at hr
        dsimp only at hr
        by_cases hs : resp.StatusCode = StatusNotModified
        · rw [if_pos (by simpa using hs)] at hr
          cases hr
          exact ⟨⟨rfl, resp, rfl, hs⟩, rfl, rfl⟩
        · rw [if_neg (by simpa using hs)] at hr
          cases hp : w.Parse resp.Body with
          | error e => rw [hp] at hr; cases hr
          | ok f => rw [hp] at hr; cases hr; cases hnil
  refine ⟨⟨?_, ?_⟩, ?_, ?_, ?_, ?_, ?_⟩
  · rintro ⟨r, hr, hnil⟩
    exact (hshape r hr hnil).1
  · rintro ⟨hreq, resp, hdo, hs⟩
    exact ⟨_, LoadFeedFromURL_not_modified w url etag t resp hreq hdo hs, rfl⟩
  · intro r hr hnil
    exact (hshape r hr hnil).2
  · intro err hreq
    simp [LoadFeedFromURL, hreq]
  · intro err hreq hdo
    simp [LoadFeedFromURL, hreq, hdo]
  · intro resp err hreq hdo hs hp
    simp [LoadFeedFromURL, hreq, hdo, hs, hp]
  · intro app feedId feed err hfeed hload
    exact FetchNewFeedItems_of_load_error w app feedId feed err hfeed hload

/-- C7 at concrete inputs: a 304 answer gives a result with no parsed feed; a transport
failure and an unparseable body give an error, and the fetch cycle returns an error. -/
theorem load_unchanged_iff_not_modified_witness :
    (∃ r, LoadFeedFromURL (World.notModified 0) "https://example.org/rss" "v1" 0 = .ok r ∧
      r.Feed = none) ∧
    LoadFeedFromURL (World.unreachable 0) "https://example.org/rss" "v1" 0 =
      .error (.msg "dial tcp: connection refused") ∧
    LoadFeedFromURL (World.unparseable 0) "https://example.org/rss" "v1" 0 =
      .error (.msg "Failed to detect feed type") ∧
    FetchNewFeedItems (World.unreachable 0) sampleStore "feed1" =
      (sampleStore, .returned
        (some (.wrap "failed to load feed from URL" (.msg "dial tcp: connection refused")))) :=
  ⟨(load_unchanged_iff_not_modified (World.notModified 0) "https://example.org/rss" "v1"
      0).1.mpr ⟨rfl, ⟨304, "", "", ""⟩, rfl, rfl⟩,
    (load_unchanged_iff_not_modified (World.unreachable 0) "https://example.org/rss" "v1"
      0).2.2.2.1 _ rfl rfl,
    (load_unchanged_iff_not_modified (World.unparseable 0) "https://example.org/rss" "v1"
      0).2.2.2.2.1 ⟨200, "v2", "", "xml"⟩ _ rfl rfl (by decide) rfl,
    (load_unchanged_iff_not_modified (World.unreachable 0) "" "" 0).2.2.2.2.2
      sampleStore "feed1" sampleFeedRecord _ (by decide) rfl⟩

/-! ## C8: only the owner can start an archive attempt -/

/-- C8. `handleArchiveLink` as a function of the store and the request, giving its result
and the archive attempts it launched. For an authenticated caller and an existing Link
(its id, like that of every stored record, not empty) whose owner is not the caller, it
fails with the Forbidden error (status 403) and launches nothing. Whenever it launches
an attempt, the caller is authenticated, the Link exists, its owner is the caller, the
attempt is the only one, it is `MaybeArchiveLink` for that link id, and the result is the
200 acknowledgement. And for the owner of an existing Link it does launch it. -/
theorem archive_requires_owner (app : App) (c : Context) :
    (∀ caller link, c.AuthRecordId = some caller →
      FindLinkById app (c.PathParam "id") = some link → link.id ≠ "" →
      link.user ≠ caller →
      handleArchiveLink app c =
        (.apiError (NewForbiddenError "You don't have permission to archive this link"), []) ∧
      (NewForbiddenError "You don't have permission to archive this link").Code = 403) ∧
    ((handleArchiveLink app c).2 ≠ [] →
      ∃ caller link, c.AuthRecordId = some caller ∧
        FindLinkById app (c.PathParam "id") = some link ∧ link.user = caller ∧
        handleArchiveLink app c =
          (.json 200 [("message", "Archive process started")],
            [.MaybeArchiveLink (c.PathParam "id")])) ∧
    (∀ caller link, c.AuthRecordId = some caller →
      FindLinkById app (c.PathParam "id") = some link → link.id ≠ "" →
      link.user = caller →
      handleArchiveLink app c =
        (.json 200 [("message", "Archive process started")],
          [.MaybeArchiveLink (c.PathParam "id")])) := by
  have hfound : ∀ link, FindLinkById app (c.PathParam "id") = some link →
      link.id = c.PathParam "id" := by
    intro link hlink
    unfold FindLinkById at hlink
    simpa using List.find?_some hlink
  refine ⟨?_, ?_, ?_⟩
  · intro caller link hauth hlink hne howner
    have hid : c.PathParam "id" ≠ "" := by rw [← hfound link hlink]; exact hne
    refine ⟨?_, rfl⟩
    simp [handleArchiveLink, hid, hauth, hlink, howner]
  · intro hlaunched
    unfold handleArchiveLink at hlaunched ⊢
    dsimp only at hlaunched ⊢
    by_cases hid : c.PathParam "id" = ""
    · simp [hid] at hlaunched
    · cases hauth : c.AuthRecordId with
      | none => simp [hid, hauth] at hlaunched
      | some caller =>
        cases hlink : FindLinkById app (c.PathParam "id") with
        | none => simp [hid, hauth, hlink] at hlaunched
        | some link =>
          by_cases howner : link.user = caller
          · exact ⟨caller, link, rfl, rfl, howner,
              by simp [hid, hlink, howner, FireAndForget, StatusOK]⟩
          · simp [hid, hauth, hlink, howner] at hlaunched
  · intro caller link hauth hlink hne howner
    have hid : c.PathParam "id" ≠ "" := by rw [← hfound link hlink]; exact hne
    simp [handleArchiveLink, hid, hauth, hlink, howner, FireAndForget, StatusOK]

/-- C8 at concrete inputs: `link1` belongs to `ann`; `bob` is refused with status 403
and nothing is launched, `ann` gets the acknowledgement and one attempt. -/
theorem archive_requires_owner_witness :
    handleArchiveLink sampleStore (sampleContext "bob" "link1" "") =
      (.apiError (NewForbiddenError "You don't have permission to archive this link"), []) ∧
    NewForbiddenError "You don't have permission to archive this link" =
      ⟨403, "You don't have permission to archive this link."⟩ ∧
    handleArchiveLink sampleStore (sampleContext "ann" "link1" "") =
      (.json 200 [("message", "Archive process started")], [.MaybeArchiveLink "link1"]) :=
  ⟨((archive_requires_owner sampleStore (sampleContext "bob" "link1" "")).1 "bob"
      ⟨"link1", "ann"⟩ rfl (by decide) (by decide) (by decide)).1,
    by decide,
    (archive_requires_owner sampleStore (sampleContext "ann" "link1" "")).2.2 "ann"
      ⟨"link1", "ann"⟩ rfl (by decide) (by decide) rfl⟩

/-! ## C9: the creation hooks -/

/-- C9. Each creation hook as a function of the created entity, giving its return value
and the attempts it launched. For a created Link with id `L` the `links` hook returns no
error and launches, as a multiset, exactly `MaybeSummarizeLink L` and
`MaybeArchiveLink L`, each once and nothing else; its return value is a function of the
event alone, so it does not depend on what the attempts do. For a created FeedItem with
id `I` the `feed_items` hook returns no error and launches exactly one attempt, the
conversion to a link with argument `I`. -/
theorem creation_hooks_launch_once (e : ModelEvent) :
    (linksAfterCreate e).1 = none ∧
    (((linksAfterCreate e).2 : List Attempt) : Multiset Attempt) =
      {Attempt.MaybeSummarizeLink e.ModelId, Attempt.MaybeArchiveLink e.ModelId} ∧
    (linksAfterCreate e).2.count (.MaybeSummarizeLink e.ModelId) = 1 ∧
    (linksAfterCreate e).2.count (.MaybeArchiveLink e.ModelId) = 1 ∧
    (linksAfterCreate e).2.length = 2 ∧
    (feedItemsAfterCreate e).1 = none ∧
    (feedItemsAfterCreate e).2 = [.convertFeedItemToLinkFunc e.ModelId] := by
  refine ⟨rfl, rfl, ?_, ?_, rfl, rfl, rfl⟩
  · simp [linksAfterCreate, FireAndForget, List.count_cons]
  · simp [linksAfterCreate, FireAndForget, List.count_cons]

/-! ## C10: `SaveNewFeed` on a 304 answer -/

/-- C10 (the code departs from it). For an authenticated request with a non-empty url,
when the remote server answers the unconditional first fetch with 304 and the `feeds`
collection is found, `LoadFeedFromURL` returns a result whose `Feed` is nil and
`SaveNewFeed` reads `feedResult.Feed.Title` through that nil pointer: the call ends in
the run-time panic, with nothing written. -/
theorem SaveNewFeed_not_modified_panics (w : World) (app : App) (c : Context)
    (caller : String) (resp : Response)
    (hauth : c.AuthRecordId = some caller) (hurl : c.FormValue "url" ≠ "")
    (hreq : w.NewRequest (c.FormValue "url") = none)
    (hdo : w.Do (conditionalGet w (c.FormValue "url") "" Time.zero) = .ok resp)
    (hstatus : resp.StatusCode = StatusNotModified)
    (hcollection : w.FindCollection "feeds" = none) :
    LoadFeedFromURL w (c.FormValue "url") "" Time.zero =
      .ok { Feed := none, ETag := "", LastModified := "" } ∧
    SaveNewFeed w app c = (app, .nilPointerDereference) := by
  have hload := LoadFeedFromURL_not_modified w (c.FormValue "url") "" Time.zero resp hreq
    hdo hstatus
  refine ⟨hload, ?_⟩
  unfold SaveNewFeed
  simp only [hauth, hurl, hload, hcollection, beq_iff_eq, if_false]

/-- C10 at the failing input: `ann` posts the url of a feed whose server answers 304. -/
theorem SaveNewFeed_not_modified_panics_witness :
    SaveNewFeed (World.notModified 0) sampleStore
      (sampleContext "ann" "" "https://example.org/rss") =
      (sampleStore, .nilPointerDereference) :=
  (SaveNewFeed_not_modified_panics (World.notModified 0) sampleStore
    (sampleContext "ann" "" "https://example.org/rss") "ann" ⟨304, "", "", ""⟩
    rfl (by decide) rfl rfl rfl rfl).2

end Lynx
